import Mathlib

/-!
Shallow embedding of the pokefin research/debate engine.

The repository snapshot contains the frontend (`src/js/app.js`, the
unnamed frontend files) and the Node relay (`src/server/index.js`); the
Python backend (`agents/debate_coordinator.py` and friends) is not part
of the snapshot, but several of its routines are quoted verbatim in the
design documents under `src/` (notably `src/MVP_READY_TO_SHIP.md`,
"Fix 3"/"Fix 4", and the conviction/action pseudocode embedded at
`src/js/app.js:430-453`).  Definitions below are embedded from those
quoted routines where they exist and modelled from the specification
where the backend routine is absent; each doc comment says which.
-/

namespace Pokefin

/-- Categorical risk level.  The specification's data model lists
{Low, Medium, High, Extreme}; the quoted risk-threshold code in
`src/MVP_READY_TO_SHIP.md` ("Fix 3") additionally produces "VERY HIGH",
so the embedding carries all five levels. -/
inductive Risk where
  | low
  | medium
  | high
  | veryHigh
  | extreme
deriving DecidableEq, Repr

/-- Severity rank of a risk level, used to state monotonicity. -/
def Risk.rank : Risk → ℕ
  | .low => 0
  | .medium => 1
  | .high => 2
  | .veryHigh => 3
  | .extreme => 4

/-- Embedded from the Python excerpt quoted at
`src/MVP_READY_TO_SHIP.md:517-530` ("Fix 3: Better Risk Assessment
Thresholds"): the valuation-risk threshold table keyed off the
normalized valuation multiple (P/E ratio). -/
def valuation_risk (pe_ratio : ℚ) : Risk :=
  if pe_ratio > 100 then .extreme
  else if pe_ratio > 50 then .veryHigh
  else if pe_ratio > 30 then .high
  else if pe_ratio > 15 then .medium
  else .low

/-- Embedded from the Python excerpt quoted at
`src/MVP_READY_TO_SHIP.md:532-540` ("Fix 4"): volatility risk keyed off
the absolute day price change percentage. -/
def volatility_risk (day_change_percent : ℚ) : Risk :=
  if |day_change_percent| > 5 then .high
  else if |day_change_percent| > 2 then .medium
  else .low

/-- Embedded from the Python excerpt quoted at
`src/MVP_READY_TO_SHIP.md:532-540` ("Fix 4"): market risk keyed
inversely off the conviction score (not off the Verdict confidence). -/
def market_risk (conviction : ℤ) : Risk :=
  if conviction < 4 then .high
  else if conviction < 7 then .medium
  else .low

/-- The numeric bundle fields the risk assessor reads. -/
structure BundleNums where
  pe_ratio : ℚ
  day_change_percent : ℚ
deriving DecidableEq, Repr

/-- The three categorical risk levels of a report.  The specification
calls the third component `exposureRisk`; the quoted code calls it
`market_risk`. -/
structure RiskProfile where
  valuationRisk : Risk
  volatilityRisk : Risk
  exposureRisk : Risk
deriving DecidableEq, Repr

/-- The risk assessor, assembled from the three quoted threshold rules
of `src/MVP_READY_TO_SHIP.md` ("Fix 3"/"Fix 4").  Note that the quoted
code passes the *conviction score* into the market/exposure component. -/
def assess_risks (b : BundleNums) (conviction : ℤ) : RiskProfile :=
  { valuationRisk := valuation_risk b.pe_ratio
    volatilityRisk := volatility_risk b.day_change_percent
    exposureRisk := market_risk conviction }

/-- Debate side. -/
inductive Role where
  | proponent
  | opponent
deriving DecidableEq, Repr

/-- Institutional-flow (13F) aggregate signal, from the signal-boost
table embedded at `src/js/app.js:435-441`. -/
inductive Flow where
  | strongBuying
  | strongSelling
  | neutralFlow
deriving DecidableEq, Repr

/-- Unusual-options-activity bias, from the signal-boost table embedded
at `src/js/app.js:435-441`. -/
inductive Bias where
  | bullish
  | bearish
  | neutralBias
deriving DecidableEq, Repr

/-- The strong-signal readings the conviction calculator inspects. -/
structure SignalReadings where
  redditBullishPct : Option ℕ
  flow13f : Flow
  unusualActivity : Bias
deriving DecidableEq, Repr

/-- Sentiment-skew adjustment from the table at `src/js/app.js:435-441`:
Reddit sentiment above 75% bullish gives +1, below 25% gives −1. -/
def reddit_adjustment (p : Option ℕ) : ℚ :=
  match p with
  | none => 0
  | some v => if v > 75 then 1 else if v < 25 then -1 else 0

/-- Institutional-flow adjustment from the table at
`src/js/app.js:435-441`: strong buying +1.5, strong selling −1.5. -/
def flow_adjustment : Flow → ℚ
  | .strongBuying => 3/2
  | .strongSelling => -(3/2)
  | .neutralFlow => 0

/-- Unusual-activity adjustment from the table at
`src/js/app.js:435-441`: bullish +0.5, bearish −0.5. -/
def bias_adjustment : Bias → ℚ
  | .bullish => 1/2
  | .bearish => -(1/2)
  | .neutralBias => 0

/-- Sum of the fixed triggered signal adjustments (the "signal boost" of
the pseudocode at `src/js/app.js:433-441`). -/
def signal_boost (s : SignalReadings) : ℚ :=
  reddit_adjustment s.redditBullishPct + flow_adjustment s.flow13f
    + bias_adjustment s.unusualActivity

/-- Modelled from the spec: the Python `_calculate_conviction` is not in
the repository snapshot (only the pseudocode at `src/js/app.js:430-446`).
Spec §4.6: `raw = round(confidence / 10) + Σ(signalAdjustments)`. -/
def raw_score (confidence : ℕ) (adjSum : ℚ) : ℚ :=
  (round ((confidence : ℚ) / 10) : ℤ) + adjSum

/-- Modelled from the spec: the Python `_calculate_conviction` is not in
the repository snapshot (only the pseudocode at `src/js/app.js:430-446`).
If the Opponent won the score is inverted (`10 − raw`), and the result
is clamped to the closed integer range [1,10]; the spec's data model
requires an integer ConvictionScore, so the clamped value is rounded to
the nearest integer first (the adjustment sum may be a half-integer). -/
def conviction_score (winner : Role) (confidence : ℕ) (adjSum : ℚ) : ℤ :=
  let raw := raw_score confidence adjSum
  let signed := if winner = Role.opponent then 10 - raw else raw
  max 1 (min 10 (round signed))

/-- Trading action derived from the conviction score. -/
inductive Action where
  | strongSell
  | sell
  | hold
  | buy
  | strongBuy
deriving DecidableEq, Repr

/-- How bearish an action is (StrongSell most, StrongBuy least), used to
state monotonicity of the action table. -/
def Action.bearishness : Action → ℕ
  | .strongSell => 4
  | .sell => 3
  | .hold => 2
  | .buy => 1
  | .strongBuy => 0

/-- Modelled from the spec: the Python action-mapping code is not in the
repository snapshot (only the table at `src/js/app.js:448-453`:
8–10 → StrongBuy/Buy, 4–7 → Hold, 1–3 → Sell/StrongSell).  The split
points inside the two-valued tiers are fixed by the spec's Scenario A
(conviction 9 → StrongBuy) and Scenario B (conviction 1 → StrongSell). -/
def action_for (conviction : ℤ) : Action :=
  if conviction ≥ 9 then .strongBuy
  else if conviction ≥ 8 then .buy
  else if conviction ≥ 4 then .hold
  else if conviction ≥ 2 then .sell
  else .strongSell

/-- A signal-bundle entry: a provider's result, or the unavailable
marker left when the provider failed or timed out. -/
inductive BundleEntry (α : Type) where
  | available (result : α)
  | unavailable
deriving DecidableEq, Repr

/-- Whether a bundle entry is the unavailable marker. -/
def BundleEntry.isUnavailable {α : Type} : BundleEntry α → Bool
  | .available _ => false
  | .unavailable => true

/-- Modelled from the spec: the Python `_gather_comprehensive_signals`
is not in the repository snapshot; `src/ROBUSTNESS_IMPROVEMENTS.md:158-169`
quotes its pattern (`asyncio.gather(..., return_exceptions=True)` — every
provider is called, failures are captured instead of propagating).  The
concurrent fan-out is collapsed to the per-provider result function
`fetch`; each provider independently contributes a result entry or an
unavailable marker, keyed by provider name. -/
def gather {α : Type} (providers : List String)
    (fetch : String → Except String α) : List (String × BundleEntry α) :=
  providers.map fun p =>
    (p, match fetch p with
        | .ok r => BundleEntry.available r
        | .error _ => BundleEntry.unavailable)

/-- Which of the two concurrently generated rebuttals of a round
finished first.  The debate engine's output must not depend on it. -/
inductive FirstFinisher where
  | proponentFirst
  | opponentFirst
deriving DecidableEq, Repr

/-- State of the debate engine: the transcript (role-tagged statements)
and the number of completed rounds. -/
structure DebateState where
  transcript : List (Role × String)
  roundsCompleted : ℕ
deriving DecidableEq, Repr

/-- The debate engine's initial state: no rounds run. -/
def DebateState.init : DebateState := ⟨[], 0⟩

/-- Modelled from the spec: the Python `_run_debate` round body is not
in the repository snapshot (outline at `src/js/app.js:410-428`).  One
completed round appends the two rebuttals to the transcript in fixed
order — Proponent first — regardless of which of the concurrently
generated pair finished first (the `fin` argument is deliberately
ignored: that is the determinism the spec demands). -/
def step_round (s : DebateState) (pr op : String) (fin : FirstFinisher) :
    DebateState :=
  { transcript := s.transcript ++ [(Role.proponent, pr), (Role.opponent, op)]
    roundsCompleted := s.roundsCompleted + 1 }

/-- Run a sequence of completed rounds from a given state; each list
item carries the two rebuttal texts and the observed completion order. -/
def run_rounds (s : DebateState) :
    List (String × String × FirstFinisher) → DebateState
  | [] => s
  | (pr, op, fin) :: rest => run_rounds (step_round s pr op fin) rest

/-- The tagged error type of `research()`, from spec §7. -/
inductive ResearchError where
  | generationFailure (msg : String)
  | configurationError (msg : String)
deriving DecidableEq, Repr

/-- The external text-generation backend: case builders, per-round
rebuttal generators and the judge.  A `.error` value models a generator
failing or exceeding its deadline (a GenerationFailure). -/
structure GenBackend where
  buildCase : Role → Except String String
  rebuttal : Role → ℕ → Except String String
  judge : Except String (Role × ℕ)

/-- The debate loop: run `remaining` more rounds starting at round
number `roundNo` from state `s`; a failed rebuttal generation aborts
the whole loop. -/
def run_debate_from (gen : GenBackend) :
    ℕ → ℕ → DebateState → Except String DebateState
  | 0, _, s => Except.ok s
  | remaining + 1, roundNo, s => do
    let pr ← gen.rebuttal Role.proponent roundNo
    let op ← gen.rebuttal Role.opponent roundNo
    run_debate_from gen remaining (roundNo + 1)
      (step_round s pr op FirstFinisher.proponentFirst)

/-- Modelled from the spec: the Python `_run_debate` is not in the
repository snapshot.  Runs `maxRounds` sequential rounds (numbered from
1); within a round the Proponent's and Opponent's rebuttals are both
generated and appended Proponent-first, and any generation failure
aborts the whole debate. -/
def run_debate (gen : GenBackend) (maxRounds : ℕ) :
    Except String DebateState :=
  run_debate_from gen maxRounds 1 DebateState.init

/-- The immutable research report, spec §3. -/
structure ResearchReport where
  bundle : List (String × BundleEntry String)
  proponentCase : String
  opponentCase : String
  transcript : List (Role × String)
  winner : Role
  confidence : ℕ
  conviction : ℤ
  action : Action
  risk : RiskProfile
deriving DecidableEq, Repr

/-- Modelled from the spec: the Python `research_stock` orchestration is
not in the repository snapshot (outline at `src/js/app.js:349-368`).
Configuration is validated first (non-empty provider set, 1–3 debate
rounds); the bundle is gathered with per-provider failure isolation;
then cases, debate rounds and the verdict are generated, any
GenerationFailure aborting the whole call; finally conviction, action
and risks are derived and assembled into the report. -/
def research (providers : List String) (maxRounds : ℕ)
    (fetch : String → Except String String) (gen : GenBackend)
    (nums : BundleNums) (signals : SignalReadings) :
    Except ResearchError ResearchReport :=
  if providers.isEmpty then
    Except.error (ResearchError.configurationError "empty provider set")
  else if maxRounds = 0 ∨ maxRounds > 3 then
    Except.error (ResearchError.configurationError "invalid profile")
  else
    let bundle := gather providers fetch
    let gens : Except String (String × String × DebateState × Role × ℕ) := do
      let pc ← gen.buildCase Role.proponent
      let oc ← gen.buildCase Role.opponent
      let st ← run_debate gen maxRounds
      let v ← gen.judge
      pure (pc, oc, st, v)
    match gens with
    | .error e => Except.error (ResearchError.generationFailure e)
    | .ok (pc, oc, st, w, conf) =>
      let conv := conviction_score w conf (signal_boost signals)
      Except.ok
        { bundle := bundle
          proponentCase := pc
          opponentCase := oc
          transcript := st.transcript
          winner := w
          confidence := conf
          conviction := conv
          action := action_for conv
          risk := assess_risks nums conv }

/-!
## The report consumer's text parser

`parseResearchData` (frontend, `src/unnamed/part_009:746-825`) extracts
structured fields from the formatted recommendation text with a fixed
set of regular expressions.  The JS RegExp engine is a platform
primitive, so each regular expression is abstracted as one field of a
`ResearchMatchers` record returning its capture groups when it matches;
likewise the numeric conversions `parseFloat`/`parseInt` are abstract
`String → ℚ` / `String → ℤ` parameters.  Everything else — which field
is set under which match, the nested market-data section, the comma
stripping, the percentage division, the unit scaling — is embedded from
the source.  The Lean function is total, mirroring that the JS function
contains no throwing operation. -/

/-- One abstract matcher per regular expression used by
`parseResearchData`; a `some` value carries the capture groups. -/
structure ResearchMatchers where
  recMatch : String → Option String
  convMatch : String → Option String
  priceMatch : String → Option (String × String × String)
  thesisMatch : String → Option String
  marketDataMatch : String → Option String
  currentPriceMatch : String → Option String
  marketCapMatch : String → Option (String × Char)
  peMatch : String → Option String
  marginMatch : String → Option String
  growthMatch : String → Option String
  redditMatch : String → Option (String × String × String)
  twitterMatch : String → Option (String × String)

/-- Reddit sentiment sub-object built at `src/unnamed/part_009:808-814`. -/
structure RedditSentiment where
  sentiment_label : String
  sentiment_score : ℚ
  mention_volume : ℤ
deriving DecidableEq, Repr

/-- Twitter sentiment sub-object built at `src/unnamed/part_009:816-822`. -/
structure TwitterSentiment where
  sentiment_label : String
  sentiment_score : ℚ
deriving DecidableEq, Repr

/-- The `sections.price_data` object of `parseResearchData`. -/
structure PriceData where
  current_price : Option ℚ
  market_cap : Option ℚ
deriving DecidableEq, Repr

/-- The `sections.fundamentals` object of `parseResearchData`. -/
structure Fundamentals where
  pe_ratio : Option ℚ
  profit_margin : Option ℚ
  revenue_growth : Option ℚ
deriving DecidableEq, Repr

/-- The `sections.sentiment_data` object of `parseResearchData`. -/
structure SentimentData where
  reddit : Option RedditSentiment
  twitter : Option TwitterSentiment
deriving DecidableEq, Repr

/-- The object `parseResearchData` returns (`{ ...data, ...sections }`). -/
structure ResearchData where
  ticker : String
  action : Option String
  conviction : Option ℤ
  current_price : Option ℚ
  target_price : Option ℚ
  upside_pct : Option ℚ
  key_thesis : Option String
  price_data : PriceData
  fundamentals : Fundamentals
  sentiment_data : SentimentData
  news_headlines : List String
deriving DecidableEq, Repr

/-- `marketCapMatch[1] * (unit scaling)` — the `if unit === 'T' ...`
chain at `src/unnamed/part_009:786-793`. -/
def scale_market_cap (cap : ℚ) (unit : Char) : ℚ :=
  if unit = 'T' then cap * 10 ^ 12
  else if unit = 'B' then cap * 10 ^ 9
  else if unit = 'M' then cap * 10 ^ 6
  else cap

/-- `.replace(/,/g, '')` applied before parsing the market-data current
price (`src/unnamed/part_009:783`). -/
def strip_commas (s : String) : String :=
  ⟨s.data.filter (fun c => c ≠ ',')⟩

/-- Embedded from `parseResearchData` (`src/unnamed/part_009:746-825`):
each field is set exactly when its regular expression matched; the
market-data sub-fields are matched inside the market-data section text;
`news_headlines` is initialised empty and never filled. -/
def parseResearchData (m : ResearchMatchers) (pF : String → ℚ)
    (pI : String → ℤ) (text ticker : String) : ResearchData :=
  { ticker := ticker
    action := m.recMatch text
    conviction := (m.convMatch text).map pI
    current_price := (m.priceMatch text).map fun t => pF t.1
    target_price := (m.priceMatch text).map fun t => pF t.2.1
    upside_pct := (m.priceMatch text).map fun t => pF t.2.2
    key_thesis := m.thesisMatch text
    price_data :=
      { current_price := (m.marketDataMatch text).bind fun mt =>
          (m.currentPriceMatch mt).map fun s => pF (strip_commas s)
        market_cap := (m.marketDataMatch text).bind fun mt =>
          (m.marketCapMatch mt).map fun su => scale_market_cap (pF su.1) su.2 }
    fundamentals :=
      { pe_ratio := (m.peMatch text).map pF
        profit_margin := (m.marginMatch text).map pF
        revenue_growth := (m.growthMatch text).map pF }
    sentiment_data :=
      { reddit := (m.redditMatch text).map fun t =>
          { sentiment_label := t.1.trim
            sentiment_score := (pI t.2.1 : ℚ) / 100
            mention_volume := pI t.2.2 }
        twitter := (m.twitterMatch text).map fun t =>
          { sentiment_label := t.1.trim
            sentiment_score := (pI t.2 : ℚ) / 100 } }
    news_headlines := [] }

/-!
## The chat renderer's `linkifyText`

Embedded from `src/js/app.js:49-64`: five sequential global
single-character replacements escape HTML, then the URL pattern
`(https?://[^\s]+)` is replaced globally by an anchor tag, then
newlines become `<br>`.  Lists of characters model JS strings; a global
single-character `String.replace` is a `flatMap`, and the global URL
replace is a left-to-right scan that at each position either matches
the (deterministic) URL regex maximally or keeps the character. -/

/-- Global single-character replacement, the meaning of
`text.replace(/c/g, r)` for a single-character pattern. -/
def replChar (p : Char) (r : List Char) (l : List Char) : List Char :=
  l.flatMap fun c => if c = p then r else [c]

/-- Embedded from `src/js/app.js:51-56`: the five escaping passes, `&`
first, in source order. -/
def escapeHtml (l : List Char) : List Char :=
  replChar '\'' ("&#039;").data
    (replChar '"' ("&quot;").data
      (replChar '>' ("&gt;").data
        (replChar '<' ("&lt;").data
          (replChar '&' ("&amp;").data l))))

/-- What a single character becomes under HTML escaping: the five
entities of `src/js/app.js:51-56`, other characters kept. -/
def escMap (c : Char) : List Char :=
  if c = '&' then ("&amp;").data
  else if c = '<' then ("&lt;").data
  else if c = '>' then ("&gt;").data
  else if c = '"' then ("&quot;").data
  else if c = '\'' then ("&#039;").data
  else [c]

/-- The whitespace class `\s` of JS regular expressions. -/
def isJsSpace (c : Char) : Bool :=
  c = ' ' || c = '\t' || c = '\n' || c = '\r' || c = '\x0b' || c = '\x0c' ||
  c = ' ' || c = ' ' || (' ' ≤ c && c ≤ ' ') ||
  c = ' ' || c = ' ' || c = ' ' || c = ' ' ||
  c = '　' || c = '﻿'

/-- Match of the URL pattern `https?:\/\/[^\s]+` anchored at the start
of `l`: the scheme literal followed by a non-empty maximal run of
non-whitespace characters.  Returns the matched text and the rest. -/
def matchUrlAt (l : List Char) : Option (List Char × List Char) :=
  match l with
  | 'h' :: 't' :: 't' :: 'p' :: 's' :: ':' :: '/' :: '/' :: rest =>
    let run := rest.takeWhile fun c => !isJsSpace c
    if run.isEmpty then none
    else some (('h' :: 't' :: 't' :: 'p' :: 's' :: ':' :: '/' :: '/' :: run),
      rest.dropWhile fun c => !isJsSpace c)
  | 'h' :: 't' :: 't' :: 'p' :: ':' :: '/' :: '/' :: rest =>
    let run := rest.takeWhile fun c => !isJsSpace c
    if run.isEmpty then none
    else some (('h' :: 't' :: 't' :: 'p' :: ':' :: '/' :: '/' :: run),
      rest.dropWhile fun c => !isJsSpace c)
  | _ => none

/-- Opening of the inserted anchor markup, up to the href value. -/
def aOpen : List Char := ("<a href=\"").data

/-- Middle of the inserted anchor markup, between the href value and
the link text. -/
def aMid : List Char := ("\" target=\"_blank\" rel=\"noopener noreferrer\">").data

/-- Closing anchor tag of the inserted markup. -/
def aClose : List Char := ("</a>").data

/-- If the URL pattern matches at the head of `l`, the rest is strictly
shorter than `l` (the match consumes at least the scheme). -/
def matchUrlAt_rest_lt {l url rest : List Char}
    (h : matchUrlAt l = some (url, rest)) : rest.length < l.length := by
  unfold matchUrlAt at h
  split at h
  case _ c rs =>
    by_cases hr : (rs.takeWhile fun c => !isJsSpace c).isEmpty
    · simp [hr] at h
    · simp [hr] at h
      have := (List.dropWhile_suffix (l := rs)
        (p := fun c => !isJsSpace c)).sublist.length_le
      simp [← h.2]
      omega
  case _ c rs =>
    by_cases hr : (rs.takeWhile fun c => !isJsSpace c).isEmpty
    · simp [hr] at h
    · simp [hr] at h
      have := (List.dropWhile_suffix (l := rs)
        (p := fun c => !isJsSpace c)).sublist.length_le
      simp [← h.2]
      omega
  case _ => exact absurd h (by simp)

/-- Embedded from `src/js/app.js:59-60`: global replacement of the URL
pattern by `<a href="$1" target="_blank" rel="noopener noreferrer">$1</a>`,
scanning left to right. -/
def linkifyUrls : List Char → List Char
  | [] => []
  | c :: rest =>
    match h : matchUrlAt (c :: rest) with
    | some (url, rest') =>
      aOpen ++ url ++ aMid ++ url ++ aClose ++ linkifyUrls rest'
    | none => c :: linkifyUrls rest
termination_by l => l.length
decreasing_by
  · exact matchUrlAt_rest_lt h
  · simp

/-- Embedded from `src/js/app.js:63`: global replacement of newlines by
`<br>`. -/
def brReplace (l : List Char) : List Char :=
  l.flatMap fun c => if c = '\n' then ("<br>").data else [c]

/-- Embedded from `src/js/app.js:49-64`: escape, then linkify URLs,
then replace newlines. -/
def linkifyText (s : String) : String :=
  ⟨brReplace (linkifyUrls (escapeHtml s.data))⟩

/-- Strings whose only HTML tags are the anchor tags and `<br>`
elements `linkifyText` itself inserts: built from tag-free characters,
inserted `<br>` elements, and inserted anchors whose URL text contains
no whitespace, angle bracket or double quote. -/
inductive SafeHtml : List Char → Prop
  | nil : SafeHtml []
  | chr {c : Char} {l : List Char} : c ≠ '<' → c ≠ '>' → SafeHtml l →
      SafeHtml (c :: l)
  | br {l : List Char} : SafeHtml l →
      SafeHtml ('<' :: 'b' :: 'r' :: '>' :: l)
  | anchor {url l : List Char} :
      (∀ c ∈ url, isJsSpace c = false ∧ c ≠ '<' ∧ c ≠ '>' ∧ c ≠ '"') →
      SafeHtml l → SafeHtml (aOpen ++ url ++ aMid ++ url ++ aClose ++ l)

/-- A signal bundle with none of the strong-signal adjustment triggers. -/
def noTriggers : SignalReadings :=
  { redditBullishPct := none
    flow13f := Flow.neutralFlow
    unusualActivity := Bias.neutralBias }

/-- The default entry used to read transcript positions. -/
def dfltEntry : Role × String := (Role.proponent, "")

/-- The debate-engine invariant: the transcript has exactly two entries
per completed round and strictly alternates Proponent/Opponent starting
with Proponent. -/
def GoodTranscript (s : DebateState) : Prop :=
  s.transcript.length = 2 * s.roundsCompleted ∧
  ∀ i, i < s.transcript.length →
    (s.transcript.getD i dfltEntry).1 =
      if i % 2 = 0 then Role.proponent else Role.opponent

/-- A generation backend that fails (times out) on the Proponent
rebuttal of round 2 and succeeds everywhere else. -/
def genFailRound2 : GenBackend :=
  { buildCase := fun _ => Except.ok "case"
    rebuttal := fun role n =>
      if n = 2 ∧ role = Role.proponent then Except.error "deadline exceeded"
      else Except.ok "rebuttal"
    judge := Except.ok (Role.proponent, 87) }

/-- Two providers that always answer, used in the failure scenario. -/
def twoProviders : List String := ["price", "news"]

/-- A provider function with every provider answering. -/
def fetchAllOk : String → Except String String := fun _ => Except.ok "data"

/-- The eight providers of the standard profile
(`src/js/app.js:297-305`). -/
def eightProviders : List String :=
  ["reddit", "twitter", "13f", "insider", "unusual_options", "price",
   "financials", "news"]

/-- A provider function on which exactly the four conditional social
and institutional sources fail. -/
def fetchFourFail : String → Except String String := fun p =>
  if p = "reddit" ∨ p = "twitter" ∨ p = "13f" ∨ p = "unusual_options" then
    Except.error "provider timeout"
  else Except.ok "data"

/-- An always-succeeding generation backend. -/
def genAllOk : GenBackend :=
  { buildCase := fun _ => Except.ok "case"
    rebuttal := fun _ _ => Except.ok "rebuttal"
    judge := Except.ok (Role.proponent, 87) }

/-- The never-matching matcher set, for the witness. -/
def noMatchers : ResearchMatchers :=
  { recMatch := fun _ => none, convMatch := fun _ => none
    priceMatch := fun _ => none, thesisMatch := fun _ => none
    marketDataMatch := fun _ => none, currentPriceMatch := fun _ => none
    marketCapMatch := fun _ => none, peMatch := fun _ => none
    marginMatch := fun _ => none, growthMatch := fun _ => none
    redditMatch := fun _ => none, twitterMatch := fun _ => none }

/-!
## Theorems
-/

/-- C1: for every Verdict winner, every confidence and every possible
adjustment sum (including the worst-case extremes and the inverted
Opponent-win case), the conviction score is an integer — it lives in
`ℤ` by construction — in the closed range [1,10]. -/
theorem conviction_score_in_range (w : Role) (confidence : ℕ) (adjSum : ℚ) :
    1 ≤ conviction_score w confidence adjSum ∧
      conviction_score w confidence adjSum ≤ 10 := by
  unfold conviction_score
  refine ⟨le_max_left _ _, max_le (by norm_num) (min_le_left _ _)⟩

/-- C2: the conviction calculator computes
`raw = round(confidence / 10) + Σ(adjustments)` with the fixed deltas
(sentiment skew ±1, institutional flow ±1.5, unusual activity ±0.5),
inverts to `10 − raw` when the Opponent won, and on the spec's two
scenarios yields conviction 9 / StrongBuy (Proponent, confidence 87, no
triggers) and raw 9 / conviction 1 / StrongSell (Opponent, confidence
90, no triggers). -/
theorem conviction_formula_and_scenarios :
    (∀ confidence adjSum, raw_score confidence adjSum =
      (round ((confidence : ℚ) / 10) : ℤ) + adjSum) ∧
    (∀ p, reddit_adjustment (some p) =
      if p > 75 then 1 else if p < 25 then -1 else 0) ∧
    flow_adjustment Flow.strongBuying = 3/2 ∧
    flow_adjustment Flow.strongSelling = -(3/2) ∧
    bias_adjustment Bias.bullish = 1/2 ∧
    bias_adjustment Bias.bearish = -(1/2) ∧
    (∀ confidence adjSum, conviction_score Role.opponent confidence adjSum =
      max 1 (min 10 (round (10 - raw_score confidence adjSum)))) ∧
    signal_boost noTriggers = 0 ∧
    conviction_score Role.proponent 87 (signal_boost noTriggers) = 9 ∧
    action_for 9 = Action.strongBuy ∧
    raw_score 90 (signal_boost noTriggers) = 9 ∧
    conviction_score Role.opponent 90 (signal_boost noTriggers) = 1 ∧
    action_for 1 = Action.strongSell := by
  have hb : signal_boost noTriggers = 0 := by
    simp [signal_boost, noTriggers, reddit_adjustment, flow_adjustment,
      bias_adjustment]
  refine ⟨fun c a => rfl, fun p => rfl, rfl, rfl, rfl, rfl,
    fun c a => rfl, hb, ?_, by decide, ?_, ?_, by decide⟩
  · rw [hb]
    have h87 : (round ((87 : ℚ) / 10) : ℤ) = 9 := by norm_num [round_eq]
    simp [conviction_score, raw_score, h87]
  · rw [hb]
    have h90 : (round ((90 : ℚ) / 10) : ℤ) = 9 := by norm_num [round_eq]
    simp [raw_score, h90]
  · rw [hb]
    have h90 : (round ((90 : ℚ) / 10) : ℤ) = 9 := by norm_num [round_eq]
    simp [conviction_score, raw_score, h90]

/-- C8: the conviction-to-action table is monotone — a strictly higher
conviction in [1,10] is never assigned a strictly more bearish action. -/
theorem action_for_monotone (c1 c2 : ℤ) (h1 : 1 ≤ c1) (h2 : c2 ≤ 10)
    (hlt : c1 < c2) :
    (action_for c2).bearishness ≤ (action_for c1).bearishness := by
  unfold action_for
  split_ifs <;> simp [Action.bearishness] <;> omega

/-- Witness for C8 at the concrete pair (3, 9). -/
theorem action_for_monotone_witness :
    (action_for 9).bearishness ≤ (action_for 3).bearishness :=
  action_for_monotone 3 9 (by norm_num) (by norm_num) (by norm_num)

/-- C6: valuation risk is determined solely by the valuation multiple,
through the quoted threshold table (>100 Extreme, >50 Very High,
>30 High, >15 Medium, else Low); in particular a multiple of 302 is
Extreme and a multiple of 7.6 is Low. -/
theorem valuation_risk_table (b1 b2 : BundleNums) (c1 c2 : ℤ)
    (hpe : b1.pe_ratio = b2.pe_ratio) :
    (assess_risks b1 c1).valuationRisk = (assess_risks b2 c2).valuationRisk ∧
    (∀ pe : ℚ, (100 < pe → valuation_risk pe = Risk.extreme) ∧
      (50 < pe → pe ≤ 100 → valuation_risk pe = Risk.veryHigh) ∧
      (30 < pe → pe ≤ 50 → valuation_risk pe = Risk.high) ∧
      (15 < pe → pe ≤ 30 → valuation_risk pe = Risk.medium) ∧
      (pe ≤ 15 → valuation_risk pe = Risk.low)) ∧
    valuation_risk 302 = Risk.extreme ∧
    valuation_risk (76/10) = Risk.low := by
  refine ⟨by simp [assess_risks, hpe], ?_, by norm_num [valuation_risk],
    by norm_num [valuation_risk]⟩
  intro pe
  refine ⟨fun h => ?_, fun h h' => ?_, fun h h' => ?_, fun h h' => ?_,
    fun h => ?_⟩ <;>
    · unfold valuation_risk
      split_ifs <;> first | rfl | linarith

/-- Witness for C6: two bundles sharing the multiple 302 under distinct
conviction scores agree on valuation risk, namely Extreme. -/
theorem valuation_risk_table_witness :
    (assess_risks ⟨302, 0⟩ 1).valuationRisk =
      (assess_risks ⟨302, 3/2⟩ 9).valuationRisk ∧
    valuation_risk 302 = Risk.extreme := by
  have h := valuation_risk_table ⟨302, 0⟩ ⟨302, 3/2⟩ 1 9 rfl
  exact ⟨h.1, h.2.2.1⟩

/-- C7 counterexample: the risk profile is *not* independent of the
conviction score — the quoted "Fix 4" code keys market/exposure risk
off the conviction score, so two runs on the same bundle that differ
only in conviction (3 vs 8) produce different RiskProfiles. -/
theorem risk_profile_depends_on_conviction :
    assess_risks ⟨20, 1⟩ 3 ≠ assess_risks ⟨20, 1⟩ 8 := by
  decide

/-- C7 (amended): valuation and volatility risk are independent of the
conviction score, and exposure (market) risk is keyed inversely off the
*conviction score* — not the Verdict confidence — so a lower conviction
never yields a strictly lower exposure risk. -/
theorem risk_profile_conviction_keying (b : BundleNums) (c1 c2 : ℤ)
    (hle : c1 ≤ c2) :
    (assess_risks b c1).valuationRisk = (assess_risks b c2).valuationRisk ∧
    (assess_risks b c1).volatilityRisk = (assess_risks b c2).volatilityRisk ∧
    (market_risk c2).rank ≤ (market_risk c1).rank := by
  refine ⟨rfl, rfl, ?_⟩
  unfold market_risk
  split_ifs <;> simp [Risk.rank] <;> omega

/-- Witness for C7's amended claim at the concrete pair (2, 8). -/
theorem risk_profile_conviction_keying_witness :
    (assess_risks ⟨20, 1⟩ 2).valuationRisk =
      (assess_risks ⟨20, 1⟩ 8).valuationRisk ∧
    (assess_risks ⟨20, 1⟩ 2).volatilityRisk =
      (assess_risks ⟨20, 1⟩ 8).volatilityRisk ∧
    (market_risk 8).rank ≤ (market_risk 2).rank :=
  risk_profile_conviction_keying ⟨20, 1⟩ 2 8 (by norm_num)

/-- Completing one round preserves the debate-engine invariant. -/
theorem good_step (s : DebateState) (pr op : String) (f : FirstFinisher)
    (h : GoodTranscript s) : GoodTranscript (step_round s pr op f) := by
  obtain ⟨hlen, halt⟩ := h
  constructor
  · simp [step_round, hlen]
    omega
  · intro i hi
    simp only [step_round, List.length_append, List.length_cons,
      List.length_nil] at hi
    simp only [step_round]
    rcases lt_trichotomy i s.transcript.length with hlt | heq | hgt
    · rw [List.getD_append _ _ _ _ hlt]
      exact halt i hlt
    · rw [List.getD_append_right _ _ _ _ (le_of_eq heq.symm)]
      subst heq
      simp [List.getD, hlen, Nat.mul_mod_right]
    · have hi1 : i = s.transcript.length + 1 := by omega
      rw [List.getD_append_right _ _ _ _ (by omega)]
      have hsub : i - s.transcript.length = 1 := by omega
      have hodd : i % 2 = 1 := by omega
      rw [hsub]
      simp [List.getD, hodd]

/-- Running any sequence of rounds preserves the invariant. -/
theorem good_run_rounds (rounds : List (String × String × FirstFinisher)) :
    ∀ s : DebateState, GoodTranscript s →
      GoodTranscript (run_rounds s rounds) := by
  induction rounds with
  | nil => intro s h; exact h
  | cons r rest ih =>
    intro s h
    exact ih _ (good_step s r.1 r.2.1 r.2.2 h)

/-- The initial debate state satisfies the invariant. -/
theorem good_init : GoodTranscript DebateState.init := by
  constructor <;> simp [DebateState.init]

/-- The transcript is append-only across any further rounds. -/
theorem run_rounds_append_only
    (rounds : List (String × String × FirstFinisher)) :
    ∀ s : DebateState, ∃ t,
      (run_rounds s rounds).transcript = s.transcript ++ t := by
  induction rounds with
  | nil => intro s; exact ⟨[], by simp [run_rounds]⟩
  | cons r rest ih =>
    intro s
    obtain ⟨pr, op, fin⟩ := r
    obtain ⟨t, ht⟩ := ih (step_round s pr op fin)
    refine ⟨[(Role.proponent, pr), (Role.opponent, op)] ++ t, ?_⟩
    show (run_rounds (step_round s pr op fin) rest).transcript = _
    rw [ht]
    simp [step_round]

/-- C4: after any number of completed rounds the transcript length is
exactly `2 × roundsCompleted`, the entries strictly alternate
Proponent, Opponent, … starting with Proponent; the transcript is
append-only once a round is entered; and a round's output is
independent of which of the two concurrently generated rebuttals
finished first. -/
theorem debate_transcript_invariants
    (rounds : List (String × String × FirstFinisher)) :
    (run_rounds DebateState.init rounds).transcript.length =
      2 * (run_rounds DebateState.init rounds).roundsCompleted ∧
    (∀ i, i < (run_rounds DebateState.init rounds).transcript.length →
      ((run_rounds DebateState.init rounds).transcript.getD i dfltEntry).1 =
        if i % 2 = 0 then Role.proponent else Role.opponent) ∧
    (∀ more, ∃ t,
      (run_rounds (run_rounds DebateState.init rounds) more).transcript =
        (run_rounds DebateState.init rounds).transcript ++ t) ∧
    (∀ s pr op f1 f2, step_round s pr op f1 = step_round s pr op f2) := by
  obtain ⟨hlen, halt⟩ := good_run_rounds rounds DebateState.init good_init
  exact ⟨hlen, halt, fun more => run_rounds_append_only more _,
    fun s pr op f1 f2 => rfl⟩

/-- Witness for C4 on one concrete completed round: the second
transcript entry is the Opponent's. -/
theorem debate_transcript_invariants_witness :
    1 < (run_rounds DebateState.init
      [("p1", "o1", FirstFinisher.opponentFirst)]).transcript.length ∧
    ((run_rounds DebateState.init
      [("p1", "o1", FirstFinisher.opponentFirst)]).transcript.getD 1
        dfltEntry).1 = Role.opponent := by
  have h := debate_transcript_invariants
    [("p1", "o1", FirstFinisher.opponentFirst)]
  have hl : 1 < (run_rounds DebateState.init
      [("p1", "o1", FirstFinisher.opponentFirst)]).transcript.length := by
    simp [run_rounds, step_round, DebateState.init]
  refine ⟨hl, ?_⟩
  rw [h.2.1 1 hl]
  decide

/-- If the debate loop returns a state, that state has completed every
requested round: two transcript entries per requested round. -/
theorem run_debate_from_ok (gen : GenBackend) :
    ∀ (remaining roundNo : ℕ) (s st : DebateState),
      run_debate_from gen remaining roundNo s = Except.ok st →
      st.roundsCompleted = s.roundsCompleted + remaining ∧
      st.transcript.length = s.transcript.length + 2 * remaining := by
  intro remaining
  induction remaining with
  | zero =>
    intro roundNo s st h
    simp [run_debate_from] at h
    simp [← h]
  | succ k ih =>
    intro roundNo s st h
    simp [run_debate_from] at h
    cases hpr : gen.rebuttal Role.proponent roundNo with
    | error e => simp [hpr, Bind.bind, Except.bind, pure, Except.pure] at h
    | ok pr =>
      cases hop : gen.rebuttal Role.opponent roundNo with
      | error e => simp [hpr, hop, Bind.bind, Except.bind, pure, Except.pure] at h
      | ok op =>
        simp [hpr, hop, Bind.bind, Except.bind, pure, Except.pure] at h
        obtain ⟨h1, h2⟩ := ih (roundNo + 1) _ st h
        simp [step_round] at h1 h2
        omega

/-- If some rebuttal generation in the range of rounds the loop will
run would fail, the loop fails: it aborts at the first failing call. -/
theorem run_debate_from_error (gen : GenBackend) :
    ∀ (remaining start : ℕ) (s : DebateState),
      (∃ (role : Role) (k : ℕ) (e : String), start ≤ k ∧
        k < start + remaining ∧ gen.rebuttal role k = Except.error e) →
      ∃ msg, run_debate_from gen remaining start s = Except.error msg := by
  intro remaining
  induction remaining with
  | zero =>
    intro start s h
    obtain ⟨role, k, e, h1, h2, _⟩ := h
    omega
  | succ n ih =>
    intro start s h
    obtain ⟨role, k, e, h1, h2, herr⟩ := h
    cases hpr : gen.rebuttal Role.proponent start with
    | error e1 =>
      refine ⟨e1, ?_⟩
      simp [run_debate_from, hpr, Bind.bind, Except.bind]
    | ok pr =>
      cases hop : gen.rebuttal Role.opponent start with
      | error e2 =>
        refine ⟨e2, ?_⟩
        simp [run_debate_from, hpr, hop, Bind.bind, Except.bind]
      | ok op =>
        have hks : k ≠ start := by
          intro hk
          subst hk
          cases role with
          | proponent => rw [herr] at hpr; exact Except.noConfusion hpr
          | opponent => rw [herr] at hop; exact Except.noConfusion hop
        obtain ⟨msg, hmsg⟩ := ih (start + 1)
          (step_round s pr op FirstFinisher.proponentFirst)
          ⟨role, k, e, by omega, by omega, herr⟩
        refine ⟨msg, ?_⟩
        simp [run_debate_from, hpr, hop, Bind.bind, Except.bind, hmsg]

/-- If `research` returns a report, every generation stage succeeded
and is recorded in it: the transcript covers every requested round and
both cases and the verdict come from successful generator calls. -/
theorem research_ok_stages (providers : List String)
    (maxRounds : ℕ) (fetch : String → Except String String)
    (gen : GenBackend) (nums : BundleNums) (signals : SignalReadings)
    (r : ResearchReport)
    (h : research providers maxRounds fetch gen nums signals =
      Except.ok r) :
    r.transcript.length = 2 * maxRounds ∧
    gen.buildCase Role.proponent = Except.ok r.proponentCase ∧
    gen.buildCase Role.opponent = Except.ok r.opponentCase ∧
    gen.judge = Except.ok (r.winner, r.confidence) := by
  unfold research at h
  split_ifs at h
  cases hpc : gen.buildCase Role.proponent with
  | error e => simp [hpc, Bind.bind, Except.bind, pure, Except.pure] at h
  | ok pc =>
    cases hoc : gen.buildCase Role.opponent with
    | error e => simp [hpc, hoc, Bind.bind, Except.bind, pure, Except.pure] at h
    | ok oc =>
      cases hst : run_debate gen maxRounds with
      | error e => simp [hpc, hoc, hst, Bind.bind, Except.bind, pure, Except.pure] at h
      | ok st =>
        cases hv : gen.judge with
        | error e => simp [hpc, hoc, hst, hv, Bind.bind, Except.bind, pure, Except.pure] at h
        | ok v =>
          obtain ⟨w, conf⟩ := v
          simp [hpc, hoc, hst, hv, Bind.bind, Except.bind, pure, Except.pure] at h
          have hlen := run_debate_from_ok gen maxRounds 1 DebateState.init st hst
          simp [DebateState.init] at hlen
          rw [← h]
          refine ⟨by simp [hlen.2], ?_, ?_, ?_⟩ <;> simp [hpc, hoc, hv]

/-- C5: `research` is all-or-nothing.  Any returned report contains the
full `2 × maxRounds` transcript with both cases and the verdict coming
from successful generator calls (no partial, one-sided or best-effort
report); whenever any case, rebuttal (at any round of the debate) or
verdict generation fails under a valid configuration, the entire call
fails with a tagged GenerationFailure; and in particular a generation
failure during round 2 of a 2-round debate fails the whole call — not
a 1-round report. -/
theorem research_all_or_nothing (providers : List String) (maxRounds : ℕ)
    (fetch : String → Except String String) (gen : GenBackend)
    (nums : BundleNums) (signals : SignalReadings) :
    (∀ r, research providers maxRounds fetch gen nums signals =
        Except.ok r →
      r.transcript.length = 2 * maxRounds ∧
      gen.buildCase Role.proponent = Except.ok r.proponentCase ∧
      gen.buildCase Role.opponent = Except.ok r.opponentCase ∧
      gen.judge = Except.ok (r.winner, r.confidence)) ∧
    (providers ≠ [] → 1 ≤ maxRounds → maxRounds ≤ 3 →
      ((∃ e, gen.buildCase Role.proponent = Except.error e) ∨
        (∃ e, gen.buildCase Role.opponent = Except.error e) ∨
        (∃ (role : Role) (k : ℕ) (e : String), 1 ≤ k ∧ k ≤ maxRounds ∧
          gen.rebuttal role k = Except.error e) ∨
        (∃ e, gen.judge = Except.error e)) →
      ∃ msg, research providers maxRounds fetch gen nums signals =
        Except.error (ResearchError.generationFailure msg)) ∧
    research twoProviders 2 fetchAllOk genFailRound2 ⟨20, 1⟩ noTriggers =
      Except.error (ResearchError.generationFailure "deadline exceeded") := by
  refine ⟨fun r h => research_ok_stages providers maxRounds fetch gen nums
    signals r h, ?_, rfl⟩
  intro hprov hr1 hr3 hfail
  have hne : providers.isEmpty = false := by
    cases providers with
    | nil => exact absurd rfl hprov
    | cons a l => rfl
  have h2 : ¬(maxRounds = 0 ∨ maxRounds > 3) := by omega
  have hgens : ∃ e,
      (do
        let pc ← gen.buildCase Role.proponent
        let oc ← gen.buildCase Role.opponent
        let st ← run_debate gen maxRounds
        let v ← gen.judge
        pure (pc, oc, st, v) :
        Except String (String × String × DebateState × Role × ℕ)) =
        Except.error e := by
    cases hbp : gen.buildCase Role.proponent with
    | error e0 => exact ⟨e0, by simp [hbp, Bind.bind, Except.bind]⟩
    | ok pc =>
      cases hbo : gen.buildCase Role.opponent with
      | error e0 => exact ⟨e0, by simp [hbp, hbo, Bind.bind, Except.bind]⟩
      | ok oc =>
        cases hd : run_debate gen maxRounds with
        | error e0 =>
          exact ⟨e0, by simp [hbp, hbo, hd, Bind.bind, Except.bind]⟩
        | ok st =>
          cases hj : gen.judge with
          | error e0 =>
            exact ⟨e0, by simp [hbp, hbo, hd, hj, Bind.bind, Except.bind]⟩
          | ok v =>
            exfalso
            rcases hfail with ⟨e, he⟩ | ⟨e, he⟩ |
              ⟨role, k, e, hk1, hk2, he⟩ | ⟨e, he⟩
            · rw [he] at hbp
              exact Except.noConfusion hbp
            · rw [he] at hbo
              exact Except.noConfusion hbo
            · obtain ⟨msg, hmsg⟩ := run_debate_from_error gen maxRounds 1
                DebateState.init ⟨role, k, e, hk1, by omega, he⟩
              rw [show run_debate gen maxRounds =
                run_debate_from gen maxRounds 1 DebateState.init from rfl,
                hmsg] at hd
              exact Except.noConfusion hd
            · rw [he] at hj
              exact Except.noConfusion hj
  obtain ⟨e, he⟩ := hgens
  refine ⟨e, ?_⟩
  simp only [bind_pure_comp] at he
  simp [research, hne, h2, he]

/-- Witness for C5: the round-2 rebuttal failure makes the 2-round
research call return a tagged GenerationFailure, and a report returned
by a fully successful 2-round run has the 4-entry transcript. -/
theorem research_all_or_nothing_witness :
    (∃ msg, research twoProviders 2 fetchAllOk genFailRound2 ⟨20, 1⟩
      noTriggers = Except.error (ResearchError.generationFailure msg)) ∧
    ∀ r, research twoProviders 2 fetchAllOk genAllOk ⟨20, 1⟩ noTriggers =
      Except.ok r → r.transcript.length = 4 := by
  constructor
  · exact (research_all_or_nothing twoProviders 2 fetchAllOk genFailRound2
      ⟨20, 1⟩ noTriggers).2.1 (by simp [twoProviders]) (by norm_num)
      (by norm_num)
      (Or.inr (Or.inr (Or.inl ⟨Role.proponent, 2, "deadline exceeded",
        by norm_num, by norm_num, by simp [genFailRound2]⟩)))
  · intro r h
    exact ((research_all_or_nothing twoProviders 2 fetchAllOk genAllOk
      ⟨20, 1⟩ noTriggers).1 r h).1

/-- C3: the gathered bundle has exactly one entry per configured
provider — a failing provider contributes an unavailable marker rather
than being dropped — and with 4 of the 8 standard providers failing the
bundle still has 8 entries (4 of them unavailable markers) and
`research()` still completes successfully. -/
theorem gather_one_entry_per_provider :
    (∀ (α : Type) (providers : List String)
      (fetch : String → Except String α),
      (gather providers fetch).map Prod.fst = providers) ∧
    (gather eightProviders fetchFourFail).length = 8 ∧
    ((gather eightProviders fetchFourFail).filter
      fun e => e.2.isUnavailable).length = 4 ∧
    ∃ r, research eightProviders 2 fetchFourFail genAllOk ⟨20, 1⟩
      noTriggers = Except.ok r := by
  refine ⟨fun α providers fetch => ?_, rfl, rfl, ⟨_, rfl⟩⟩
  unfold gather
  rw [List.map_map]
  apply List.map_id'

/-- C9: `parseResearchData` is total (the Lean function returns a
`ResearchData` for every input, mirroring the absence of any throwing
operation in the JS) with the given ticker always copied into the
result, each optional field present exactly when its regular expression
matched, and text matching no pattern yielding the silently partial
object rather than an error. -/
theorem parseResearchData_field_presence (m : ResearchMatchers)
    (pF : String → ℚ) (pI : String → ℤ) (text ticker : String) :
    (parseResearchData m pF pI text ticker).ticker = ticker ∧
    ((parseResearchData m pF pI text ticker).action.isSome ↔
      (m.recMatch text).isSome) ∧
    ((parseResearchData m pF pI text ticker).conviction.isSome ↔
      (m.convMatch text).isSome) ∧
    ((parseResearchData m pF pI text ticker).current_price.isSome ↔
      (m.priceMatch text).isSome) ∧
    ((parseResearchData m pF pI text ticker).target_price.isSome ↔
      (m.priceMatch text).isSome) ∧
    ((parseResearchData m pF pI text ticker).upside_pct.isSome ↔
      (m.priceMatch text).isSome) ∧
    ((parseResearchData m pF pI text ticker).key_thesis.isSome ↔
      (m.thesisMatch text).isSome) ∧
    ((parseResearchData m pF pI text ticker).sentiment_data.reddit.isSome ↔
      (m.redditMatch text).isSome) ∧
    ((parseResearchData m pF pI text ticker).sentiment_data.twitter.isSome ↔
      (m.twitterMatch text).isSome) ∧
    (m.recMatch text = none → m.convMatch text = none →
      m.priceMatch text = none → m.thesisMatch text = none →
      m.marketDataMatch text = none → m.peMatch text = none →
      m.marginMatch text = none → m.growthMatch text = none →
      m.redditMatch text = none → m.twitterMatch text = none →
      parseResearchData m pF pI text ticker =
        { ticker := ticker, action := none, conviction := none
          current_price := none, target_price := none, upside_pct := none
          key_thesis := none, price_data := ⟨none, none⟩
          fundamentals := ⟨none, none, none⟩
          sentiment_data := ⟨none, none⟩, news_headlines := [] }) := by
  refine ⟨rfl, Iff.rfl, ?_, ?_, ?_, ?_, Iff.rfl, ?_, ?_, ?_⟩
  · simp [parseResearchData]
  · simp [parseResearchData]
  · simp [parseResearchData]
  · simp [parseResearchData]
  · simp [parseResearchData]
  · simp [parseResearchData]
  · intro h1 h2 h3 h4 h5 h6 h7 h8 h9 h10
    simp [parseResearchData, h1, h2, h3, h4, h5, h6, h7, h8, h9, h10]

/-- Witness for C9: on text matching no pattern, the parse result is
the silently partial object carrying only the ticker. -/
theorem parseResearchData_field_presence_witness :
    parseResearchData noMatchers (fun _ => 0) (fun _ => 0) "hello" "NVDA" =
      { ticker := "NVDA", action := none, conviction := none
        current_price := none, target_price := none, upside_pct := none
        key_thesis := none, price_data := ⟨none, none⟩
        fundamentals := ⟨none, none, none⟩
        sentiment_data := ⟨none, none⟩, news_headlines := [] } :=
  (parseResearchData_field_presence noMatchers (fun _ => 0) (fun _ => 0)
    "hello" "NVDA").2.2.2.2.2.2.2.2.2 rfl rfl rfl rfl rfl rfl rfl rfl rfl rfl

/-- `replChar` on an empty string. -/
theorem replChar_nil (p : Char) (r : List Char) : replChar p r [] = [] := rfl

/-- `replChar` unfolds one character. -/
theorem replChar_cons (p : Char) (r : List Char) (c : Char) (l : List Char) :
    replChar p r (c :: l) = (if c = p then r else [c]) ++ replChar p r l := by
  simp [replChar]

/-- `replChar` distributes over append. -/
theorem replChar_append (p : Char) (r : List Char) (l m : List Char) :
    replChar p r (l ++ m) = replChar p r l ++ replChar p r m := by
  simp [replChar]

/-- Pushing one character through the five escaping passes yields its
HTML-entity image: the `&` pass runs first, so the `&` of an inserted
entity is never re-escaped and no character is escaped twice. -/
theorem escape_char_eq (c : Char) :
    replChar '\'' ("&#039;").data (replChar '"' ("&quot;").data
      (replChar '>' ("&gt;").data (replChar '<' ("&lt;").data
        (if c = '&' then ("&amp;").data else [c])))) = escMap c := by
  by_cases h1 : c = '&'
  · subst h1; decide
  by_cases h2 : c = '<'
  · subst h2; decide
  by_cases h3 : c = '>'
  · subst h3; decide
  by_cases h4 : c = '"'
  · subst h4; decide
  by_cases h5 : c = '\''
  · subst h5; decide
  simp [escMap, replChar, h1, h2, h3, h4, h5]

/-- The five sequential global replacements of `src/js/app.js:51-56`
equal the simultaneous per-character entity substitution: every
occurrence of `&`, `<`, `>`, `"`, `'` is replaced by its entity,
exactly once. -/
theorem escapeHtml_eq_flatMap : ∀ l : List Char,
    escapeHtml l = l.flatMap escMap
  | [] => rfl
  | c :: l => by
    have ih := escapeHtml_eq_flatMap l
    unfold escapeHtml at ih ⊢
    rw [replChar_cons, replChar_append, replChar_append, replChar_append,
      replChar_append, escape_char_eq, ih, List.flatMap_cons]

/-- No HTML-entity image contains an angle bracket or a quote. -/
theorem escMap_no_bad (c' c : Char) (hc : c ∈ escMap c') :
    c ≠ '<' ∧ c ≠ '>' ∧ c ≠ '"' ∧ c ≠ '\'' := by
  unfold escMap at hc
  split_ifs at hc with h1 h2 h3 h4 h5
  · simp at hc
    rcases hc with rfl | rfl | rfl | rfl | rfl <;> decide
  · simp at hc
    rcases hc with rfl | rfl | rfl | rfl <;> decide
  · simp at hc
    rcases hc with rfl | rfl | rfl | rfl <;> decide
  · simp at hc
    rcases hc with rfl | rfl | rfl | rfl | rfl | rfl <;> decide
  · simp at hc
    rcases hc with rfl | rfl | rfl | rfl | rfl | rfl <;> decide
  · simp at hc
    subst hc
    exact ⟨h2, h3, h4, h5⟩

/-- The escaped text contains no angle bracket and no quote. -/
theorem escapeHtml_no_bad (l : List Char) :
    ∀ c ∈ escapeHtml l, c ≠ '<' ∧ c ≠ '>' ∧ c ≠ '"' ∧ c ≠ '\'' := by
  rw [escapeHtml_eq_flatMap]
  intro c hc
  rw [List.mem_flatMap] at hc
  obtain ⟨c', _, hc⟩ := hc
  exact escMap_no_bad c' c hc

/-- Characters of a matched URL are non-whitespace characters of the
scanned text (or of the scheme literal, itself made of non-whitespace
characters of the text); characters of the remainder come from the
scanned text. -/
theorem matchUrlAt_chars {l url rest : List Char}
    (h : matchUrlAt l = some (url, rest)) :
    (∀ c ∈ url, isJsSpace c = false ∧ c ∈ l) ∧ (∀ c ∈ rest, c ∈ l) := by
  unfold matchUrlAt at h
  split at h
  case _ rs =>
    by_cases hr : (rs.takeWhile fun c => !isJsSpace c).isEmpty
    · simp [hr] at h
    · simp [hr] at h
      obtain ⟨hurl, hrest⟩ := h
      constructor
      · intro c hc
        rw [← hurl] at hc
        simp only [List.mem_cons] at hc
        rcases hc with rfl | rfl | rfl | rfl | rfl | rfl | rfl | rfl | hc
        · exact ⟨by decide, by simp⟩
        · exact ⟨by decide, by simp⟩
        · exact ⟨by decide, by simp⟩
        · exact ⟨by decide, by simp⟩
        · exact ⟨by decide, by simp⟩
        · exact ⟨by decide, by simp⟩
        · exact ⟨by decide, by simp⟩
        · exact ⟨by decide, by simp⟩
        · have hp := List.mem_takeWhile_imp hc
          simp at hp
          refine ⟨hp, ?_⟩
          have : c ∈ rs := (List.takeWhile_sublist _).subset hc
          simp [this]
      · intro c hc
        rw [← hrest] at hc
        have : c ∈ rs := (List.dropWhile_sublist _).subset hc
        simp [this]
  case _ rs =>
    by_cases hr : (rs.takeWhile fun c => !isJsSpace c).isEmpty
    · simp [hr] at h
    · simp [hr] at h
      obtain ⟨hurl, hrest⟩ := h
      constructor
      · intro c hc
        rw [← hurl] at hc
        simp only [List.mem_cons] at hc
        rcases hc with rfl | rfl | rfl | rfl | rfl | rfl | rfl | hc
        · exact ⟨by decide, by simp⟩
        · exact ⟨by decide, by simp⟩
        · exact ⟨by decide, by simp⟩
        · exact ⟨by decide, by simp⟩
        · exact ⟨by decide, by simp⟩
        · exact ⟨by decide, by simp⟩
        · exact ⟨by decide, by simp⟩
        · have hp := List.mem_takeWhile_imp hc
          simp at hp
          refine ⟨hp, ?_⟩
          have : c ∈ rs := (List.takeWhile_sublist _).subset hc
          simp [this]
      · intro c hc
        rw [← hrest] at hc
        have : c ∈ rs := (List.dropWhile_sublist _).subset hc
        simp [this]
  case _ => exact absurd h (by simp)

/-- `linkifyUrls` on the empty string. -/
theorem linkifyUrls_nil : linkifyUrls [] = [] := by
  unfold linkifyUrls
  rfl

/-- `linkifyUrls` when the URL pattern matches at the head: the anchor
markup is inserted around the matched URL and scanning resumes after
the match. -/
theorem linkifyUrls_cons_some {c : Char} {l url rest : List Char}
    (h : matchUrlAt (c :: l) = some (url, rest)) :
    linkifyUrls (c :: l) =
      aOpen ++ url ++ aMid ++ url ++ aClose ++ linkifyUrls rest := by
  conv_lhs => unfold linkifyUrls
  split <;> simp_all

/-- `linkifyUrls` when the URL pattern does not match at the head. -/
theorem linkifyUrls_cons_none {c : Char} {l : List Char}
    (h : matchUrlAt (c :: l) = none) :
    linkifyUrls (c :: l) = c :: linkifyUrls l := by
  conv_lhs => unfold linkifyUrls
  split <;> simp_all

/-- If the scanned text contains no angle bracket and no double quote
(true of all HTML-escaped text), the linkified text is safe HTML: its
only tags are the inserted anchors. -/
theorem safeHtml_linkifyUrls_aux :
    ∀ (n : ℕ) (l : List Char), l.length ≤ n →
      (∀ c ∈ l, c ≠ '<' ∧ c ≠ '>' ∧ c ≠ '"') →
      SafeHtml (linkifyUrls l) := by
  intro n
  induction n with
  | zero =>
    intro l hl _
    have hnil : l = [] := List.length_eq_zero.mp (by omega)
    subst hnil
    rw [linkifyUrls_nil]
    exact SafeHtml.nil
  | succ n ih =>
    intro l hl hgood
    match l with
    | [] =>
      rw [linkifyUrls_nil]
      exact SafeHtml.nil
    | c :: rest =>
      cases hm : matchUrlAt (c :: rest) with
      | none =>
        rw [linkifyUrls_cons_none hm]
        have hc := hgood c (by simp)
        refine SafeHtml.chr hc.1 hc.2.1 (ih rest ?_ ?_)
        · simp at hl
          omega
        · intro x hx
          exact hgood x (by simp [hx])
      | some p =>
        obtain ⟨url, rest'⟩ := p
        rw [linkifyUrls_cons_some hm]
        obtain ⟨hurl, hrest⟩ := matchUrlAt_chars hm
        refine SafeHtml.anchor ?_ (ih rest' ?_ ?_)
        · intro x hx
          obtain ⟨hsp, hmem⟩ := hurl x hx
          have hg := hgood x hmem
          exact ⟨hsp, hg.1, hg.2.1, hg.2.2⟩
        · have := matchUrlAt_rest_lt hm
          simp at this hl
          omega
        · intro x hx
          exact hgood x (hrest x hx)

/-- `brReplace` distributes over append. -/
theorem brReplace_append (a b : List Char) :
    brReplace (a ++ b) = brReplace a ++ brReplace b := by
  simp [brReplace]

/-- `brReplace` fixes newline-free text. -/
theorem brReplace_eq_self {a : List Char} (h : ∀ c ∈ a, c ≠ '\n') :
    brReplace a = a := by
  induction a with
  | nil => rfl
  | cons c rest ih =>
    have hc : c ≠ '\n' := h c (by simp)
    have : brReplace (c :: rest) = (if c = '\n' then ("<br>").data else [c])
        ++ brReplace rest := by
      simp [brReplace]
    rw [this, if_neg hc, ih fun x hx => h x (by simp [hx])]
    rfl

/-- Replacing newlines by `<br>` preserves safety: a newline becomes an
inserted `<br>` tag and every other structure is kept verbatim (no
anchor token and no URL contains a newline). -/
theorem safeHtml_brReplace {l : List Char} (h : SafeHtml l) :
    SafeHtml (brReplace l) := by
  induction h with
  | nil => exact SafeHtml.nil
  | @chr c l' hlt hgt _ ih =>
    have hstep : brReplace (c :: l') =
        (if c = '\n' then ("<br>").data else [c]) ++ brReplace l' := by
      simp [brReplace]
    by_cases hc : c = '\n'
    · subst hc
      rw [hstep, if_pos rfl]
      exact SafeHtml.br ih
    · rw [hstep, if_neg hc]
      exact SafeHtml.chr hlt hgt ih
  | @br l' _ ih =>
    have hstep : brReplace ('<' :: 'b' :: 'r' :: '>' :: l') =
        '<' :: 'b' :: 'r' :: '>' :: brReplace l' := by
      simp [brReplace]
    rw [hstep]
    exact SafeHtml.br ih
  | @anchor url l' hurl _ ih =>
    have hnn : ∀ c ∈ url, c ≠ '\n' := by
      intro c hc hn
      have := (hurl c hc).1
      rw [hn] at this
      exact absurd this (by decide)
    rw [brReplace_append, brReplace_append, brReplace_append,
      brReplace_append, brReplace_append,
      brReplace_eq_self (a := aOpen) (by decide),
      brReplace_eq_self hnn,
      brReplace_eq_self (a := aMid) (by decide),
      brReplace_eq_self (a := aClose) (by decide)]
    exact SafeHtml.anchor hurl ih

/-- C10: `linkifyText` escapes every occurrence of `&`, `<`, `>`, `"`,
`'` to its HTML entity before inserting any markup (the escaped text is
exactly the per-character entity substitution and contains no angle
bracket or quote), and its output is safe HTML — the only tags in it
are the anchor tags and `<br>` elements the function itself inserts, so
no tag originating from the input survives. -/
theorem linkifyText_escapes_and_safe (s : String) :
    escapeHtml s.data = s.data.flatMap escMap ∧
    (∀ c ∈ escapeHtml s.data, c ≠ '<' ∧ c ≠ '>' ∧ c ≠ '"' ∧ c ≠ '\'') ∧
    SafeHtml (linkifyText s).data := by
  refine ⟨escapeHtml_eq_flatMap s.data, escapeHtml_no_bad s.data, ?_⟩
  show SafeHtml (brReplace (linkifyUrls (escapeHtml s.data)))
  refine safeHtml_brReplace (safeHtml_linkifyUrls_aux
    (escapeHtml s.data).length _ le_rfl ?_)
  intro c hc
  have h := escapeHtml_no_bad s.data c hc
  exact ⟨h.1, h.2.1, h.2.2.1⟩

/-- Witness for C10 on the concrete input string with a tag attempt:
the escaped text of `"a<b"` contains the harmless character `'a'`, and
the rendered output is safe HTML. -/
theorem linkifyText_escapes_and_safe_witness :
    ('a' ≠ '<' ∧ 'a' ≠ '>' ∧ 'a' ≠ '"' ∧ 'a' ≠ '\'') ∧
    SafeHtml (linkifyText "a<b").data :=
  ⟨(linkifyText_escapes_and_safe "a<b").2.1 'a' (by decide),
    (linkifyText_escapes_and_safe "a<b").2.2⟩

end Pokefin
